import Mathlib

/-!
Verification of the RAMCloud master-side replication engine
(`ReplicatedSegment`, file `ReplicatedSegment.cc`), of the backup write
path (`BackupService::writeSegment`), and of the recovery planner
(`Recovery::buildSegmentIdToBackups`).

Definitions are shallow embeddings of the C++ source.  Where the C++
source file is absent from the tree (the `ReplicatedSegment.h` header,
`BackupService.cc`, `Recovery.cc`: only their tests or callers survive),
the definition is marked `Modelled from the spec:` in its doc comment and
follows the written specification.
-/

namespace RAMCloudRep

/-- Modelled from the spec: `ReplicatedSegment::Progress`
(the header `ReplicatedSegment.h` is not in the source tree).  Per the
spec, a progress value is `{open : bool, bytes : u32, close : bool,
epoch : u64}`; bytes counters are modelled as `Nat`. -/
structure Progress where
  opened : Bool
  bytes : Nat
  closed : Bool
  epoch : Nat
deriving DecidableEq, Repr

/-- The zero progress of a freshly constructed replica. -/
def Progress.bot : Progress := ⟨false, 0, false, 0⟩

/-- Componentwise order on all four fields of a `Progress`; this is the
order in which the spec's invariant `committed ≤ acked ≤ sent ≤ queued`
is stated ("on open, bytes, close, and epoch"). -/
def Progress.cle (a b : Progress) : Bool :=
  (!a.opened || b.opened) && decide (a.bytes ≤ b.bytes) &&
    (!a.closed || b.closed) && decide (a.epoch ≤ b.epoch)

/-- Modelled from the spec: the strict order `Progress::operator<` of the
missing header, "lexicographic on `(open, bytes, close)` with `epoch`
compared independently". -/
def Progress.plt (a b : Progress) : Bool :=
  (!a.opened && b.opened) ||
    (a.opened == b.opened &&
      (decide (a.bytes < b.bytes) ||
        (decide (a.bytes = b.bytes) && (!a.closed && b.closed))))

/-- Componentwise minimum, used by `getCommitted` ("the componentwise
minimum of `committed` across all replicas"). -/
def Progress.pmin (a b : Progress) : Progress :=
  ⟨a.opened && b.opened, Nat.min a.bytes b.bytes,
   a.closed && b.closed, Nat.min a.epoch b.epoch⟩

/-- The content of a write rpc as constructed by
`ReplicatedSegment::performWrite` (`replica.writeRpc.construct(...)`):
whether it is an opening write, its byte range, whether a certificate was
included (`certificateToSend != NULL`), whether it carries the close
flag, and the epoch it was sent under. -/
structure WriteRpc where
  openFlag : Bool
  offset : Nat
  length : Nat
  cert : Bool
  closeFlag : Bool
  epoch : Nat
deriving DecidableEq, Repr

/-- One replica of a `ReplicatedSegment`, per the `Replica` record of the
missing header: `backupId`, `isActive`, `replicateAtomically`, the
progress triples, and the outstanding rpcs (a free rpc is tracked only as
a flag; its content is just `(masterId, segmentId)`). -/
structure Replica where
  isActive : Bool
  backupId : Nat
  replicateAtomically : Bool
  sent : Progress
  acked : Progress
  committed : Progress
  writeRpc : Option WriteRpc
  freeRpcOut : Bool
deriving DecidableEq, Repr

/-- A replica as default-constructed: inactive, all progress at bottom. -/
def Replica.fresh : Replica :=
  ⟨false, 0, false, Progress.bot, Progress.bot, Progress.bot, none, false⟩

/-- Modelled from the spec: `Replica::reset()` of the missing header,
"reset the replica so a different backup is tried" — all state returns to
the freshly constructed value. -/
def Replica.resetR : Replica := Replica.fresh

/-- Modelled from the spec: `Replica::failed()` of the missing header.
`handleBackupFailure` "resets the replica and marks it inactive", and the
lost replica is then "re-replicate[d] atomically (no certificate until
fully caught up on the new replica)", so the reset replica is flagged for
atomic re-replication.  (That the flag survives the reset is also what
makes the `!replica.replicateAtomically` test in
`ReplicatedSegment::handleBackupFailure` meaningful.) -/
def Replica.failedR : Replica :=
  { Replica.fresh with replicateAtomically := true }

/-- `Replica::start(backupId)` of the missing header, modelled from the
spec: "activated by `start(backupId)`". -/
def Replica.startR (backupId : Nat) (r : Replica) : Replica :=
  { r with isActive := true, backupId := backupId }

/-- The success branch of `ReplicatedSegment::performWrite` when the
outstanding write rpc completed (ReplicatedSegment.cc lines 556-564):
`acked = sent`, and `committed = acked` when
`acked == queued || acked.bytes == openLen`; the finished rpc is
destroyed. -/
def writeAckSuccess (openLen : Nat) (queued : Progress) (r : Replica) : Replica :=
  let acked := r.sent
  let committed :=
    if acked = queued ∨ acked.bytes = openLen then acked else r.committed
  { r with acked := acked, committed := committed, writeRpc := none }

/-- The `ServerNotUpException` branch of `performWrite` (lines 572-578):
roll `sent` back to `acked` and drop the rpc, waiting for the failure
notification. -/
def writeAckServerDown (r : Replica) : Replica :=
  { r with sent := r.acked, writeRpc := none }

/-- The opening write of `performWrite` (lines 611-628): the first
`openLen` bytes, with the opening certificate unless the replica is
replicating atomically; `sent.open`, `sent.bytes` and `sent.epoch` are
updated. -/
def sendOpenWrite (openLen : Nat) (qEpoch : Nat) (r : Replica) :
    Replica × WriteRpc :=
  let w : WriteRpc :=
    ⟨true, 0, openLen, !r.replicateAtomically, false, qEpoch⟩
  ({ r with
      sent := ⟨true, openLen, r.sent.closed, qEpoch⟩,
      writeRpc := some w }, w)

/-- A non-opening data write of `performWrite` (lines 649-696): send
`[sent.bytes, sent.bytes + length)` with
`length = min(queued.bytes - sent.bytes, maxBytesPerWriteRpc)`, include
the certificate only when the write is not capped by
`maxBytesPerWriteRpc`, and carry the close flag when `queued.close` and
the write consumes the last queued byte. -/
def sendDataWrite (maxBytes : Nat) (queued : Progress) (r : Replica) :
    Replica × WriteRpc :=
  let offset := r.sent.bytes
  let raw := queued.bytes - offset
  let capped := decide (maxBytes < raw)
  let length := if capped then maxBytes else raw
  let cert := !capped
  let sendClose := queued.closed && decide (offset + length = queued.bytes)
  let w : WriteRpc := ⟨false, offset, length, cert, sendClose, queued.epoch⟩
  ({ r with
      sent := ⟨r.sent.opened, offset + length, sendClose, queued.epoch⟩,
      writeRpc := some w }, w)

/-- The per-segment state of a `ReplicatedSegment` (one segment of one
master; the fields follow the constructor initialiser list,
ReplicatedSegment.cc lines 80-108).  `appendedLength` stands for the
source `Segment`'s current appended length (`segment->getAppendedLength`),
`following` is the committed-open bit of the `followingSegment` (`none`
when there is no following segment), and `epochConfirmed` is the epoch for
this segment id confirmed durable at the coordinator by the shared
`UpdateReplicationEpochTask` (`isAtLeast(segmentId, e)` is
`e ≤ epochConfirmed`). -/
structure SegState where
  appendedLength : Nat
  openLen : Nat
  maxBytesPerWriteRpc : Nat
  queued : Progress
  freeQueued : Bool
  recovering : Bool
  precedingOpenCommitted : Bool
  precedingCloseCommitted : Bool
  following : Option Bool
  epochConfirmed : Nat
  replicas : List Replica
deriving DecidableEq, Repr

/-- Modelled from the spec: `getCommitted()` of the missing header, "the
componentwise minimum of `committed` across all replicas" (the fold starts
from the all-ones progress, mirroring `Progress(true, ~0u, ~0lu, true)`). -/
def getCommitted (s : SegState) : Progress :=
  s.replicas.foldr (fun r acc => Progress.pmin r.committed acc)
    ⟨true, 4294967295, true, 18446744073709551615⟩

/-- `ReplicatedSegment::handleBackupFailure(failedId)`
(ReplicatedSegment.cc lines 225-252): every active replica on the failed
backup is `failed()`; if any of them had `!committed.close` and was not
replicating atomically, `queued.epoch` is incremented once and
`recoveringFromLostOpenReplicas` is set. -/
def handleBackupFailureF (failedId : Nat) (s : SegState) : SegState :=
  let hit := fun (r : Replica) => r.isActive && decide (r.backupId = failedId)
  let someOpenReplicaLost :=
    s.replicas.any fun r => hit r && !r.committed.closed && !r.replicateAtomically
  { s with
    replicas := s.replicas.map fun r => if hit r then Replica.failedR else r,
    queued :=
      if someOpenReplicaLost then
        { s.queued with epoch := s.queued.epoch + 1 }
      else s.queued,
    recovering := s.recovering || someOpenReplicaLost }

/-- The return condition of `ReplicatedSegment::sync(offset)`
(ReplicatedSegment.cc lines 312-320 and 331-341): the condition under
which `sync` returns, checked before the wait loop and after every
`taskQueue.performTask()` iteration of it.  `none` models the no-argument
call (the C++ default `offset == ~0u`). -/
def syncShouldReturn (offset : Option Nat) (s : SegState) : Bool :=
  !s.recovering &&
    (match offset with
     | none => (getCommitted s).closed
     | some o => decide (o ≤ (getCommitted s).bytes))

/-- The branch of `performWrite` taken when no write rpc is outstanding
(ReplicatedSegment.cc lines 597-696): an opening write while
`!replica.committed.open`, otherwise a data write. -/
def performWriteSend (openLen maxB : Nat) (queued : Progress) (r : Replica) :
    Replica × WriteRpc :=
  if r.committed.opened then sendDataWrite maxB queued r
  else sendOpenWrite openLen queued.epoch r

/-! ### Claim C3 -/

/-- A segment that is recovering from a lost open replica while one
replica has certified all 100 queued bytes; used to refute the claim that
a finite-offset `sync` does not wait on `recoveringFromLostOpenReplicas`. -/
def syncCounterexampleState : SegState :=
  { appendedLength := 100, openLen := 10, maxBytesPerWriteRpc := 30,
    queued := ⟨true, 100, false, 0⟩, freeQueued := false, recovering := true,
    precedingOpenCommitted := true, precedingCloseCommitted := true,
    following := none, epochConfirmed := 0,
    replicas := [{ Replica.fresh with
        isActive := true,
        sent := ⟨true, 100, false, 0⟩,
        acked := ⟨true, 100, false, 0⟩,
        committed := ⟨true, 100, false, 0⟩ }] }

/-! ### Claim C4 -/

/-- One tuple of a backup's `startReadingData` response as consumed by the
recovery planner: which backup reported it, the segment id, and the
primary bit. -/
structure PlanEntry where
  backup : Nat
  segId : Nat
  primary : Bool
deriving DecidableEq, Repr

/-- Round-robin collection: round `k` takes the `k`-th reported replica of
every backup, in backup order (fuel-driven recursion; the fuel bounds the
number of rounds). -/
def roundRobinAux : Nat → List (List PlanEntry) → List PlanEntry
  | 0, _ => []
  | fuel + 1, ls =>
      let heads := ls.filterMap List.head?
      if heads.isEmpty then []
      else heads ++ roundRobinAux fuel (ls.map List.tail)

/-- Modelled from the spec: the consolidation order of
`Recovery::buildSegmentIdToBackups` (Recovery.cc is not in the source
tree; only `RecoveryTest` is).  Per spec section 4.6 step 4, replicas are
ordered "by the order in which backups reported them", i.e. by expected
disk-load time: the `k`-th replica of each backup's report becomes
available at round `k`, so round `k` of every backup precedes round
`k + 1` of any backup. -/
def collectReports (reports : List (List PlanEntry)) : List PlanEntry :=
  roundRobinAux ((reports.map List.length).foldr Nat.max 0 + 1) reports

/-- Modelled from the spec: the emitted recovery plan — all primaries
first, then all secondaries, each class keeping the collection order
(spec section 4.6 step 4: "no secondary replica appears before any
primary", "within each class ... stable-sort by the order in which
backups reported them"). -/
def buildPlan (reports : List (List PlanEntry)) : List PlanEntry :=
  let c := collectReports reports
  c.filter (fun e => e.primary) ++ c.filter (fun e => !e.primary)

/-- The concrete scenario of `RecoveryTest::buildSegmentIdToBackups`:
backup1 reports segments 89 then 88 (both primary — each was that
backup's only-locator write; the reported order, open replica 89 first,
is the order the test observes under `MockRandom(1)`), backup2 reports
segment 88, backup3 reports nothing. -/
def scenarioReports : List (List PlanEntry) :=
  [[⟨1, 89, true⟩, ⟨1, 88, true⟩], [⟨2, 88, true⟩], []]

/-! ### Backup write path (claims C8, C9) -/

/-- The error outcomes of `writeSegment` named by the spec:
`BadSegmentId`, `SegmentOverflow`, `OpenRejected`. -/
inductive WriteErr where
  | badSegmentId
  | segmentOverflow
  | openRejected
deriving DecidableEq, Repr

/-- A backup replica frame: stored bytes plus the persistent metadata
fields of spec section 3 that the write path touches (`capacity`,
`certificate`, `closed`, `primary`, `epoch`). -/
structure Frame where
  data : List Nat
  capacity : Nat
  certificate : Option Nat
  closed : Bool
  primary : Bool
  epoch : Nat
deriving DecidableEq, Repr

/-- The backup's `(masterId, segmentId) → frame` index, as an association
list. -/
abbrev FrameTable := List ((Nat × Nat) × Frame)

def getFrame : FrameTable → Nat × Nat → Option Frame
  | [], _ => none
  | p :: ps, k => if p.1 = k then some p.2 else getFrame ps k

def setFrame (l : FrameTable) (k : Nat × Nat) (fr : Frame) : FrameTable :=
  l.map fun p => if p.1 = k then (k, fr) else p

/-- The frame index and free-frame pool of one backup process. -/
structure BackupState where
  segmentSize : Nat
  freeFrames : Nat
  frames : FrameTable
deriving DecidableEq, Repr

/-- Overwrite `bytes.length` bytes of `data` starting at `offset`. -/
def writeBytes (data : List Nat) (offset : Nat) (bytes : List Nat) : List Nat :=
  data.take offset ++ bytes ++ data.drop (offset + bytes.length)

/-- A newly allocated frame: zeroed bytes, no certificate, open. -/
def freshFrame (segmentSize : Nat) (primaryFlag : Bool) (epoch : Nat) : Frame :=
  ⟨List.replicate segmentSize 0, segmentSize, none, false, primaryFlag, epoch⟩

/-- Apply one validated write to a frame: copy the bytes, update the
certificate when one is provided, seal on close, record the epoch. -/
def applyWrite (fr : Frame) (offset : Nat) (bytes : List Nat) (cert : Option Nat)
    (closeFlag : Bool) (epoch : Nat) : Frame :=
  { fr with
    data := writeBytes fr.data offset bytes,
    certificate := match cert with | some c => some c | none => fr.certificate,
    closed := fr.closed || closeFlag,
    epoch := epoch }

/-- Modelled from the spec: `BackupService::writeSegment`
(BackupService.cc is not in the source tree; only BackupServiceTest.cc
is).  Per spec section 4.5: if `open`, allocate or re-use a frame
(`OpenRejected` when out of frames); else the frame must exist and be
open, otherwise `BadSegmentId` — also for a frame already sealed by a
close, regardless of the write's own flags; `SegmentOverflow` on bounds
errors; otherwise copy the bytes, update the certificate if provided, and
seal the frame if `close`. -/
def writeSegment (st : BackupState) (mid sid epoch : Nat) (offset : Nat)
    (bytes : List Nat) (cert : Option Nat)
    (openFlag closeFlag primaryFlag : Bool) : Except WriteErr BackupState :=
  match getFrame st.frames (mid, sid) with
  | none =>
      if openFlag then
        if st.freeFrames = 0 then .error .openRejected
        else if st.segmentSize < offset + bytes.length then
          .error .segmentOverflow
        else
          .ok { st with
                freeFrames := st.freeFrames - 1,
                frames := ((mid, sid),
                  applyWrite (freshFrame st.segmentSize primaryFlag epoch)
                    offset bytes cert closeFlag epoch) :: st.frames }
      else .error .badSegmentId
  | some fr0 =>
      if fr0.closed then .error .badSegmentId
      else if fr0.capacity < offset + bytes.length then .error .segmentOverflow
      else
        .ok { st with
              frames := setFrame st.frames (mid, sid)
                (applyWrite fr0 offset bytes cert closeFlag epoch) }

/-! ### The `ReplicatedSegment` transition system (claims C5, C6, C7, C10)

One small-step transition relation over `SegState` whose steps are the
public operations of `ReplicatedSegment` (`close`, the queue-stretching
part of `sync`, `free`, `handleBackupFailure`) and the per-replica steps
of `performTask` (`performWrite` rpc sends and the three completion
outcomes, `performFree`, the lost-open-replica epoch protocol), plus the
environment's moves (segment appends, the following/preceding segments'
commits, coordinator epoch confirmations).  The global
`writeRpcsInFlight` cap only restricts when sends may happen and is left
nondeterministic here. -/

/-- The observable action of a step: a write rpc to a backup, a free rpc,
a `replicationEpoch.updateToAtLeast` request, destruction of the segment,
or nothing. -/
inductive Label where
  | silent
  | write (backupId : Nat) (w : WriteRpc)
  | freeReq (backupId : Nat)
  | freeDone (backupId : Nat)
  | epochUpdate (e : Nat)
  | destroy
deriving DecidableEq, Repr

/-- The state after `performWrite` successfully awaits replica `i`'s
write rpc (ReplicatedSegment.cc lines 556-571): the replica advances via
`writeAckSuccess`, and if the whole segment's committed-close is now
reached the link to the following segment is forgotten
(`followingSegment = NULL`). -/
def ackSuccessFollow (s2 : SegState) : SegState :=
  if (getCommitted s2).closed then { s2 with following := none } else s2

def ackSuccessSeg (s : SegState) (i : Nat) (r : Replica) : SegState :=
  ackSuccessFollow
    { s with replicas := s.replicas.set i (writeAckSuccess s.openLen s.queued r) }

/-- The state of a `ReplicatedSegment` as constructed
(ReplicatedSegment.cc lines 80-109): `openLen` is the appended length at
construction, `queued = (open, openLen bytes, no close, epoch 0)`, no
replica active.  The `precedingSegment*Committed` flags are parameters:
the constructor sets them true and the ReplicaManager lowers them when a
preceding segment exists. -/
def initSeg (numReplicas openLen0 maxB : Nat) (pO pC : Bool) : SegState :=
  { appendedLength := openLen0, openLen := openLen0,
    maxBytesPerWriteRpc := maxB,
    queued := ⟨true, openLen0, false, 0⟩, freeQueued := false,
    recovering := false,
    precedingOpenCommitted := pO, precedingCloseCommitted := pC,
    following := none, epochConfirmed := 0,
    replicas := List.replicate numReplicas Replica.fresh }

/-- One step of the segment or its environment.  Guards are the branch
conditions of the embedded source functions. -/
inductive Step : SegState → Label → SegState → Prop where
  /-- The log writer appends to the source segment (grows
  `getAppendedLength`); the class contract forbids appends once `close()`
  was called. -/
  | append {s : SegState} (n : Nat) :
      s.queued.closed = false → s.appendedLength ≤ n →
      Step s .silent { s with appendedLength := n }
  /-- `ReplicatedSegment::close()` (lines 193-214): one-shot; sets
  `queued.close` and re-reads the appended length into `queued.bytes`. -/
  | closeStep {s : SegState} :
      s.queued.closed = false →
      Step s .silent
        { s with queued :=
            { s.queued with closed := true, bytes := s.appendedLength } }
  /-- The queue-stretching part of `ReplicatedSegment::sync()`
  (lines 322-328): if the appended length exceeds `queued.bytes`, enqueue
  the rest. -/
  | syncStretch {s : SegState} :
      Step s .silent
        { s with queued :=
            { s.queued with
              bytes := Nat.max s.queued.bytes s.appendedLength } }
  /-- `ReplicatedSegment::handleBackupFailure(failedId)`
  (lines 225-252). -/
  | backupFailure {s : SegState} (failedId : Nat) :
      Step s .silent (handleBackupFailureF failedId s)
  /-- `ReplicatedSegment::free()` (lines 131-168): requires the close to
  be queued and durably committed and no following segment (its asserts);
  cancels outstanding write rpcs, then sets `freeQueued`. -/
  | freeStep {s : SegState} :
      s.queued.closed = true → (getCommitted s).closed = true →
      s.following = none →
      Step s .silent
        { s with freeQueued := true,
                 replicas := s.replicas.map fun r => { r with writeRpc := none } }
  /-- `performWrite` activates an inactive replica on a backup chosen by
  the selector (lines 513-549); the selector's choice is nondeterministic
  here. -/
  | activate {s : SegState} (i backupId : Nat) (r : Replica) :
      s.replicas[i]? = some r → s.freeQueued = false →
      r.isActive = false →
      Step s .silent
        { s with replicas := s.replicas.set i (Replica.startR backupId r) }
  /-- `performWrite` sends the opening write (lines 598-629): gated on the
  preceding segment's committed open. -/
  | sendOpen {s : SegState} (i : Nat) (r : Replica) :
      s.replicas[i]? = some r → s.freeQueued = false →
      r.isActive = true → r.writeRpc = none → r.freeRpcOut = false →
      r.committed ≠ s.queued → r.committed.opened = false →
      s.precedingOpenCommitted = true →
      Step s (.write r.backupId (sendOpenWrite s.openLen s.queued.epoch r).2)
        { s with replicas :=
            s.replicas.set i (sendOpenWrite s.openLen s.queued.epoch r).1 }
  /-- `performWrite` sends a data write (lines 632-696): gated on the
  preceding segment's committed close, and a closing write is withheld
  while a following segment exists whose open is not committed
  (lines 660-674). -/
  | sendData {s : SegState} (i : Nat) (r : Replica) :
      s.replicas[i]? = some r → s.freeQueued = false →
      r.isActive = true → r.writeRpc = none → r.freeRpcOut = false →
      r.committed ≠ s.queued → r.committed.opened = true →
      Progress.plt r.sent s.queued = true →
      s.precedingCloseCommitted = true →
      ¬((sendDataWrite s.maxBytesPerWriteRpc s.queued r).2.closeFlag = true ∧
          s.following = some false) →
      Step s
        (.write r.backupId (sendDataWrite s.maxBytesPerWriteRpc s.queued r).2)
        { s with replicas :=
            s.replicas.set i (sendDataWrite s.maxBytesPerWriteRpc s.queued r).1 }
  /-- The outstanding write rpc of replica `i` completed successfully
  (lines 553-571). -/
  | ackSuccess {s : SegState} (i : Nat) (r : Replica) (w : WriteRpc) :
      s.replicas[i]? = some r → r.writeRpc = some w →
      Step s .silent (ackSuccessSeg s i r)
  /-- The outstanding write rpc failed with `ServerNotUpException`
  (lines 572-578): roll `sent` back to `acked`. -/
  | ackServerDown {s : SegState} (i : Nat) (r : Replica) (w : WriteRpc) :
      s.replicas[i]? = some r → r.writeRpc = some w →
      Step s .silent { s with replicas := s.replicas.set i (writeAckServerDown r) }
  /-- The outstanding write rpc failed with
  `BackupOpenRejectedException` (lines 579-586): reset the replica so a
  different backup is tried. -/
  | ackOpenRejected {s : SegState} (i : Nat) (r : Replica) (w : WriteRpc) :
      s.replicas[i]? = some r → r.writeRpc = some w →
      Step s .silent { s with replicas := s.replicas.set i Replica.resetR }
  /-- `performFree` issues a free rpc for an active replica
  (lines 481-492); only reached from `performTask` when `freeQueued` and
  not recovering (lines 387-391). -/
  | sendFree {s : SegState} (i : Nat) (r : Replica) :
      s.replicas[i]? = some r → s.freeQueued = true → s.recovering = false →
      r.isActive = true → r.freeRpcOut = false → r.writeRpc = none →
      Step s (.freeReq r.backupId)
        { s with replicas := s.replicas.set i { r with freeRpcOut := true } }
  /-- `performFree` reaps a finished free rpc and resets the replica
  (lines 460-480). -/
  | ackFree {s : SegState} (i : Nat) (r : Replica) :
      s.replicas[i]? = some r → s.freeQueued = true → s.recovering = false →
      r.freeRpcOut = true →
      Step s (.freeDone r.backupId)
        { s with replicas := s.replicas.set i Replica.resetR }
  /-- `performTask` destroys the segment once everything is freed
  (lines 387-391): `freeQueued`, not recovering, and no replica has any
  remaining state. -/
  | destroyStep {s : SegState} :
      s.freeQueued = true → s.recovering = false →
      (∀ r ∈ s.replicas,
        r.isActive = false ∧ r.writeRpc = none ∧ r.freeRpcOut = false) →
      Step s .destroy s
  /-- `performTask`, recovering and fully re-replicated but the
  coordinator epoch not yet confirmed: request
  `replicationEpoch.updateToAtLeast(segmentId, queued.epoch)` and stay
  scheduled (lines 400-424). -/
  | epochRequest {s : SegState} :
      s.recovering = true → getCommitted s = s.queued →
      s.epochConfirmed < s.queued.epoch →
      Step s (.epochUpdate s.queued.epoch) s
  /-- The shared `UpdateReplicationEpochTask` confirms an epoch at the
  coordinator (asynchronously). -/
  | epochConfirm {s : SegState} (e : Nat) :
      Step s .silent { s with epochConfirmed := Nat.max s.epochConfirmed e }
  /-- `performTask`, recovering, fully re-replicated, and
  `replicationEpoch.isAtLeast(segmentId, queued.epoch)`: the lost-open
  recovery is complete (lines 400-412). -/
  | recoveryDone {s : SegState} :
      s.recovering = true → getCommitted s = s.queued →
      s.queued.epoch ≤ s.epochConfirmed →
      Step s .silent { s with recovering := false }
  /-- The following segment's own acks commit its open
  (its lines 565-566 propagate the flags; here we track its
  committed-open bit directly). -/
  | followingOpens {s : SegState} :
      s.following = some false →
      Step s .silent { s with following := some true }
  /-- `ReplicaManager::openSegment` links a new head segment as this
  segment's `followingSegment`; a following segment is only linked while
  this segment is still the head, i.e. before its `close()`. -/
  | linkFollowing {s : SegState} :
      s.following = none → s.queued.closed = false →
      Step s .silent { s with following := some false }
  /-- The preceding segment's committed open is observed
  (its ack propagates `precedingSegmentOpenCommitted`). -/
  | precedingOpens {s : SegState} :
      Step s .silent { s with precedingOpenCommitted := true }
  /-- The preceding segment's committed close is observed. -/
  | precedingCloses {s : SegState} :
      Step s .silent { s with precedingCloseCommitted := true }

/-- A finite run of the transition system with its emitted labels. -/
inductive Trace : SegState → List Label → SegState → Prop where
  | nil (s : SegState) : Trace s [] s
  | cons {s t u : SegState} {l : Label} {ls : List Label} :
      Step s l t → Trace t ls u → Trace s (l :: ls) u

/-- The inductive invariant carried by each replica: the claimed chain
`committed ≤ acked ≤ sent ≤ queued` plus the auxiliary facts that make it
inductive (what an unopened/unclosed progress can look like, what an
in-flight rpc implies). -/
structure RepInv (openLen : Nat) (queued : Progress) (r : Replica) : Prop where
  cLEa : Progress.cle r.committed r.acked = true
  aLEs : Progress.cle r.acked r.sent = true
  sLEq : Progress.cle r.sent queued = true
  sentOpenZero : r.sent.opened = false → r.sent.bytes = 0 ∧ r.sent.closed = false
  ackedOpenZero : r.acked.opened = false → r.acked.bytes = 0 ∧ r.acked.closed = false
  ackedSmall : r.committed.opened = false → r.acked.bytes ≤ openLen
  comOpenBytes : r.committed.opened = true → openLen ≤ r.committed.bytes
  sentClosedFull : r.sent.closed = true → r.sent.bytes = queued.bytes ∧ queued.closed = true
  ackedClosedFull : r.acked.closed = true → r.acked.bytes = queued.bytes ∧ queued.closed = true
  sentClosedCom : r.sent.closed = true → r.committed.opened = true
  ackedClosedCom : r.acked.closed = true → r.committed.opened = true
  rpcOpen : ∀ w, r.writeRpc = some w → w.openFlag = true →
      r.sent.opened = true ∧ r.sent.bytes = openLen
  rpcData : ∀ w, r.writeRpc = some w → w.openFlag = false → r.committed.opened = true

/-- The inductive invariant of the whole segment. -/
structure SegInv (s : SegState) : Prop where
  qOpened : s.queued.opened = true
  openLenLE : s.openLen ≤ s.queued.bytes
  qLEapp : s.queued.bytes ≤ s.appendedLength
  closedFrozen : s.queued.closed = true → s.queued.bytes = s.appendedLength
  nonempty : s.replicas ≠ []
  reps : ∀ r ∈ s.replicas, RepInv s.openLen s.queued r
  followClosed : s.following = some false → ∀ r ∈ s.replicas, r.sent.closed = false

def freeWitnessState : SegState :=
  ⟨5, 2, 3, ⟨true, 5, true, 1⟩, false, false, true, true, none, 1,
    [⟨true, 1, false, ⟨true, 5, true, 1⟩, ⟨true, 5, true, 1⟩,
      ⟨true, 5, true, 1⟩, none, false⟩]⟩

def epochWitnessState : SegState :=
  ⟨3, 2, 3, ⟨true, 3, false, 1⟩, false, true, true, true, none, 0,
    [⟨true, 1, true, ⟨true, 3, false, 1⟩, ⟨true, 3, false, 1⟩,
      ⟨true, 3, false, 1⟩, none, false⟩]⟩

theorem Progress.cle_iff {a b : Progress} :
    Progress.cle a b = true ↔
      ((a.opened = true → b.opened = true) ∧ a.bytes ≤ b.bytes ∧
        (a.closed = true → b.closed = true) ∧ a.epoch ≤ b.epoch) := by
  cases a; cases b
  simp [Progress.cle, Bool.or_eq_true, Bool.and_eq_true, Bool.not_eq_true']
  constructor
  · rintro ⟨⟨⟨h1, h2⟩, h3⟩, h4⟩
    refine ⟨?_, h2, ?_, h4⟩
    · intro h; rcases h1 with h1 | h1 <;> simp_all
    · intro h; rcases h3 with h3 | h3 <;> simp_all
  · rintro ⟨h1, h2, h3, h4⟩
    refine ⟨⟨⟨?_, h2⟩, ?_⟩, h4⟩
    · rename_i opened _ _ _ opened' _ _ _
      cases opened <;> simp_all
    · rename_i _ _ closed _ _ _ closed' _
      cases closed <;> simp_all

theorem Progress.cle_refl (a : Progress) : Progress.cle a a = true := by
  simp [Progress.cle_iff]

theorem Progress.cle_trans {a b c : Progress} (h1 : Progress.cle a b = true)
    (h2 : Progress.cle b c = true) : Progress.cle a c = true := by
  rw [Progress.cle_iff] at *
  obtain ⟨o1, b1, c1, e1⟩ := h1
  obtain ⟨o2, b2, c2, e2⟩ := h2
  exact ⟨fun h => o2 (o1 h), le_trans b1 b2, fun h => c2 (c1 h), le_trans e1 e2⟩

theorem Progress.bot_cle (a : Progress) : Progress.cle Progress.bot a = true := by
  simp [Progress.cle_iff, Progress.bot]

/-! ### Claim C1 -/

/-- C1 (counterexample).  The claim asserts that the condition under which
`performWrite` advances `committed` on a successful write
(`acked == queued || acked.bytes == openLen`) holds exactly when the sent
write carried a certificate, "including for a replica whose opening write
was sent with `replicateAtomically` set".  It is false exactly there: for
a replica with `replicateAtomically` (here with `openLen = 10`,
`queued = (open, 20 bytes, no close, epoch 1)`), the opening write is sent
with no certificate (`certificateToSend = NULL`,
ReplicatedSegment.cc lines 614-616), yet on its successful completion
`acked.bytes == openLen` holds and `committed` is advanced
(lines 557-564). -/
theorem claim_C1_counterexample :
    let openLen := 10
    let queued : Progress := ⟨true, 20, false, 1⟩
    let r : Replica := { Replica.fresh with
        isActive := true,
        replicateAtomically := true }
    let res := performWriteSend openLen 30 queued r
    let r2 := writeAckSuccess openLen queued res.1
    r2.acked = res.1.sent ∧ res.2.cert = false ∧ r2.committed = r2.acked ∧
      r2.committed ≠ res.1.committed ∧
      ¬((res.1.sent = queued ∨ res.1.sent.bytes = openLen) ↔ res.2.cert = true) := by
  decide

/-- C1 (amended).  When `performWrite` observes that the outstanding write
rpc completed successfully it advances `acked = sent`, and advances
`committed = acked` exactly when `acked == queued || acked.bytes ==
openLen`; provided the replica is NOT replicating atomically (and `queued`
is unchanged between the send and the ack), that condition holds exactly
when the sent write carried a certificate.  (An atomic replica's opening
write suppresses the certificate yet still satisfies
`acked.bytes == openLen`, so its `committed` still advances — see the
counterexample.)  The well-formedness hypotheses are the per-replica
invariants of the state machine. -/
theorem claim_C1_amended (openLen maxB : Nat) (queued : Progress) (r : Replica)
    (hat : r.replicateAtomically = false)
    (_hrpc : r.writeRpc = none)
    (hqo : queued.opened = true)
    (hmax : 1 ≤ maxB)
    (hca : Progress.cle r.committed r.acked = true)
    (has : Progress.cle r.acked r.sent = true)
    (hsq : Progress.cle r.sent queued = true)
    (hco : r.committed.opened = true → openLen ≤ r.committed.bytes) :
    (writeAckSuccess openLen queued (performWriteSend openLen maxB queued r).1).acked
        = (performWriteSend openLen maxB queued r).1.sent ∧
    ((writeAckSuccess openLen queued (performWriteSend openLen maxB queued r).1).committed =
      if (performWriteSend openLen maxB queued r).1.sent = queued ∨
          (performWriteSend openLen maxB queued r).1.sent.bytes = openLen
        then (performWriteSend openLen maxB queued r).1.sent
        else r.committed) ∧
    (((performWriteSend openLen maxB queued r).1.sent = queued ∨
        (performWriteSend openLen maxB queued r).1.sent.bytes = openLen) ↔
      (performWriteSend openLen maxB queued r).2.cert = true) := by
  have hcom : (performWriteSend openLen maxB queued r).1.committed = r.committed := by
    by_cases hopen : r.committed.opened = true <;>
      simp [performWriteSend, hopen, sendDataWrite, sendOpenWrite]
  refine ⟨rfl, ?_, ?_⟩
  · show (if (performWriteSend openLen maxB queued r).1.sent = queued ∨
          (performWriteSend openLen maxB queued r).1.sent.bytes = openLen
        then (performWriteSend openLen maxB queued r).1.sent
        else (performWriteSend openLen maxB queued r).1.committed) = _
    rw [hcom]
  · rw [Progress.cle_iff] at hca has hsq
    obtain ⟨qo, qb, qc, qe⟩ := queued
    simp only at hqo hsq
    subst hqo
    by_cases hopen : r.committed.opened = true
    · have hsopen : r.sent.opened = true := has.1 (hca.1 hopen)
      have hob : openLen ≤ r.sent.bytes :=
        le_trans (hco hopen) (le_trans hca.2.1 has.2.1)
      have hsb : r.sent.bytes ≤ qb := hsq.2.1
      by_cases hcap : maxB < qb - r.sent.bytes
      · simp [performWriteSend, hopen, sendDataWrite, hcap, Progress.mk.injEq]
        omega
      · simp [performWriteSend, hopen, sendDataWrite, hcap, Progress.mk.injEq]
        exact Or.inl ⟨hsopen, by omega, fun _ => by omega⟩
    · simp [performWriteSend, hopen, sendOpenWrite, hat, Progress.mk.injEq]

/-- C1 (witness): the amended theorem applied to a concrete non-atomic
replica whose open is committed at bytes 2 of 8 queued, with
`maxBytesPerWriteRpc = 3`. -/
theorem claim_C1_witness :
    (writeAckSuccess 2 ⟨true, 8, true, 0⟩
        (performWriteSend 2 3 ⟨true, 8, true, 0⟩
          ⟨true, 1, false, ⟨true, 2, false, 0⟩, ⟨true, 2, false, 0⟩,
            ⟨true, 2, false, 0⟩, none, false⟩).1).acked
        = (performWriteSend 2 3 ⟨true, 8, true, 0⟩
            ⟨true, 1, false, ⟨true, 2, false, 0⟩, ⟨true, 2, false, 0⟩,
              ⟨true, 2, false, 0⟩, none, false⟩).1.sent ∧
    ((writeAckSuccess 2 ⟨true, 8, true, 0⟩
        (performWriteSend 2 3 ⟨true, 8, true, 0⟩
          ⟨true, 1, false, ⟨true, 2, false, 0⟩, ⟨true, 2, false, 0⟩,
            ⟨true, 2, false, 0⟩, none, false⟩).1).committed =
      if (performWriteSend 2 3 ⟨true, 8, true, 0⟩
            ⟨true, 1, false, ⟨true, 2, false, 0⟩, ⟨true, 2, false, 0⟩,
              ⟨true, 2, false, 0⟩, none, false⟩).1.sent = ⟨true, 8, true, 0⟩ ∨
          (performWriteSend 2 3 ⟨true, 8, true, 0⟩
            ⟨true, 1, false, ⟨true, 2, false, 0⟩, ⟨true, 2, false, 0⟩,
              ⟨true, 2, false, 0⟩, none, false⟩).1.sent.bytes = 2
        then (performWriteSend 2 3 ⟨true, 8, true, 0⟩
            ⟨true, 1, false, ⟨true, 2, false, 0⟩, ⟨true, 2, false, 0⟩,
              ⟨true, 2, false, 0⟩, none, false⟩).1.sent
        else ⟨true, 2, false, 0⟩) ∧
    (((performWriteSend 2 3 ⟨true, 8, true, 0⟩
          ⟨true, 1, false, ⟨true, 2, false, 0⟩, ⟨true, 2, false, 0⟩,
            ⟨true, 2, false, 0⟩, none, false⟩).1.sent = ⟨true, 8, true, 0⟩ ∨
        (performWriteSend 2 3 ⟨true, 8, true, 0⟩
          ⟨true, 1, false, ⟨true, 2, false, 0⟩, ⟨true, 2, false, 0⟩,
            ⟨true, 2, false, 0⟩, none, false⟩).1.sent.bytes = 2) ↔
      (performWriteSend 2 3 ⟨true, 8, true, 0⟩
        ⟨true, 1, false, ⟨true, 2, false, 0⟩, ⟨true, 2, false, 0⟩,
          ⟨true, 2, false, 0⟩, none, false⟩).2.cert = true) :=
  claim_C1_amended 2 3 ⟨true, 8, true, 0⟩
    ⟨true, 1, false, ⟨true, 2, false, 0⟩, ⟨true, 2, false, 0⟩,
      ⟨true, 2, false, 0⟩, none, false⟩
    rfl rfl rfl (by decide) (by decide) (by decide) (by decide) (fun _ => by decide)

/-! ### Claim C2 -/

/-- C2.  `handleBackupFailure(failedId)` resets (to the inactive,
atomically-re-replicating fresh state) exactly those active replicas whose
`backupId` equals `failedId`, leaving all other replicas unchanged; and
iff at least one such lost replica was open (`!committed.close`) and not
replicating atomically, `queued.epoch` is incremented by exactly 1 — once
per call, regardless of how many replicas were lost — and
`recoveringFromLostOpenReplicas` is set to true; otherwise `queued` and
the flag are unchanged (ReplicatedSegment.cc lines 225-252). -/
theorem claim_C2 (failedId : Nat) (s : SegState) :
    ((handleBackupFailureF failedId s).replicas.length = s.replicas.length) ∧
    (∀ i : Nat, (handleBackupFailureF failedId s).replicas[i]? =
        (s.replicas[i]?).map fun r =>
          if r.isActive = true ∧ r.backupId = failedId then Replica.failedR else r) ∧
    Replica.failedR.isActive = false ∧
    ((∃ r ∈ s.replicas, r.isActive = true ∧ r.backupId = failedId ∧
        r.committed.closed = false ∧ r.replicateAtomically = false) →
      (handleBackupFailureF failedId s).queued.epoch = s.queued.epoch + 1 ∧
      (handleBackupFailureF failedId s).recovering = true) ∧
    (¬(∃ r ∈ s.replicas, r.isActive = true ∧ r.backupId = failedId ∧
        r.committed.closed = false ∧ r.replicateAtomically = false) →
      (handleBackupFailureF failedId s).queued = s.queued ∧
      (handleBackupFailureF failedId s).recovering = s.recovering) := by
  have hany : (s.replicas.any fun r =>
        (r.isActive && decide (r.backupId = failedId)) && !r.committed.closed &&
          !r.replicateAtomically) = true ↔
      (∃ r ∈ s.replicas, r.isActive = true ∧ r.backupId = failedId ∧
        r.committed.closed = false ∧ r.replicateAtomically = false) := by
    simp [List.any_eq_true, Bool.and_eq_true, Bool.not_eq_true', and_assoc]
  refine ⟨?_, ?_, rfl, ?_, ?_⟩
  · simp [handleBackupFailureF]
  · intro i
    have hfun : ∀ r : Replica,
        (if (r.isActive && decide (r.backupId = failedId)) = true
          then Replica.failedR else r)
          = (if r.isActive = true ∧ r.backupId = failedId then Replica.failedR else r) := by
      intro r
      by_cases h : r.isActive = true ∧ r.backupId = failedId
      · rw [if_pos h, if_pos]
        simp [h.1, h.2]
      · rw [if_neg h, if_neg]
        simp only [Bool.and_eq_true, decide_eq_true_eq]
        exact h
    simp only [handleBackupFailureF, List.getElem?_map]
    cases hsr : s.replicas[i]? <;> simp [hfun]
  · intro hex
    rw [← hany] at hex
    simp [handleBackupFailureF, hex]
  · intro hex
    rw [← hany] at hex
    simp only [Bool.not_eq_true] at hex
    simp [handleBackupFailureF, hex]

/-- C3 (counterexample).  The claim says `sync(offset)` with a finite
offset returns exactly when `getCommitted().bytes` reaches
`min(offset, queued.bytes)`, and does NOT additionally wait for
`recoveringFromLostOpenReplicas` to clear.  False: the return check of
`sync` (ReplicatedSegment.cc lines 312-320, 333-341) is nested inside
`if (!recoveringFromLostOpenReplicas)`, so in this state — recovering,
with `getCommitted().bytes = 100 ≥ min(50, 100)` — `sync(50)` does not
return although the claimed condition holds. -/
theorem claim_C3_counterexample :
    ¬(syncShouldReturn (some 50) syncCounterexampleState = true ↔
        Nat.min 50 syncCounterexampleState.queued.bytes ≤
          (getCommitted syncCounterexampleState).bytes) := by
  decide

/-- C3 (amended).  For every offset `o ≤ queued.bytes`, `sync(o)` returns
exactly when `recoveringFromLostOpenReplicas` is clear AND a certificate
covering `min(o, queued.bytes) = o` is durable
(`getCommitted().bytes ≥ o`); `sync()` with no offset returns exactly when
the flag is clear AND `getCommitted().close` holds.  I.e. a finite-offset
sync also waits for `recoveringFromLostOpenReplicas` to clear. -/
theorem claim_C3_amended (s : SegState) (o : Nat) (ho : o ≤ s.queued.bytes) :
    (syncShouldReturn (some o) s = true ↔
      (s.recovering = false ∧
        Nat.min o s.queued.bytes ≤ (getCommitted s).bytes)) ∧
    (syncShouldReturn none s = true ↔
      (s.recovering = false ∧ (getCommitted s).closed = true)) := by
  have hmin : Nat.min o s.queued.bytes = o := Nat.min_eq_left ho
  constructor <;>
    simp [syncShouldReturn, hmin, Bool.and_eq_true, Bool.not_eq_true']

/-- C3 (witness): the amended theorem at the counterexample state with the
recovery flag cleared, offset 50. -/
theorem claim_C3_witness :
    (syncShouldReturn (some 50)
        { syncCounterexampleState with recovering := false } = true ↔
      ({ syncCounterexampleState with recovering := false }.recovering = false ∧
        Nat.min 50 { syncCounterexampleState with recovering := false }.queued.bytes ≤
          (getCommitted { syncCounterexampleState with recovering := false }).bytes)) ∧
    (syncShouldReturn none { syncCounterexampleState with recovering := false } = true ↔
      ({ syncCounterexampleState with recovering := false }.recovering = false ∧
        (getCommitted { syncCounterexampleState with recovering := false }).closed = true)) :=
  claim_C3_amended { syncCounterexampleState with recovering := false } 50 (by decide)

/-- C4.  The emitted plan never places a secondary before any primary:
for every input it splits as (all-primaries ++ all-secondaries); and on
the concrete three-replica scenario the plan is exactly
`(backup1, 89), (backup2, 88), (backup1, 88)` — the order asserted by
`RecoveryTest::buildSegmentIdToBackups` (part_000 lines 272-291). -/
theorem claim_C4 :
    (∀ reports : List (List PlanEntry), ∃ a b,
      buildPlan reports = a ++ b ∧ (∀ e ∈ a, e.primary = true) ∧
        (∀ e ∈ b, e.primary = false)) ∧
    buildPlan scenarioReports = [⟨1, 89, true⟩, ⟨2, 88, true⟩, ⟨1, 88, true⟩] := by
  constructor
  · intro reports
    refine ⟨(collectReports reports).filter (fun e => e.primary),
      (collectReports reports).filter (fun e => !e.primary), rfl, ?_, ?_⟩
    · intro e he
      exact (List.mem_filter.mp he).2
    · intro e he
      simpa using (List.mem_filter.mp he).2
  · decide

theorem writeBytes_length {data : List Nat} {offset : Nat} {bytes : List Nat}
    (h : offset + bytes.length ≤ data.length) :
    (writeBytes data offset bytes).length = data.length := by
  simp [writeBytes]
  omega

/-- Splicing the same bytes at the same offset twice gives the same bytes
as splicing them once. -/
theorem writeBytes_idem {data : List Nat} {offset : Nat} {bytes : List Nat}
    (h : offset + bytes.length ≤ data.length) :
    writeBytes (writeBytes data offset bytes) offset bytes =
      writeBytes data offset bytes := by
  have hlen : (data.take offset).length = offset := by
    simp
    omega
  have htk : (writeBytes data offset bytes).take offset = data.take offset := by
    rw [writeBytes, List.append_assoc]
    exact List.take_left' hlen
  have hlen2 : (data.take offset ++ bytes).length = offset + bytes.length := by
    simp [hlen]
  have hdr : (writeBytes data offset bytes).drop (offset + bytes.length) =
      data.drop (offset + bytes.length) := by
    rw [writeBytes]
    exact List.drop_left' hlen2
  conv_lhs => rw [writeBytes, htk, hdr]
  rfl

theorem setFrame_cons_pos {p : (Nat × Nat) × Frame} {ps : FrameTable}
    {k : Nat × Nat} {fr : Frame} (hp : p.1 = k) :
    setFrame (p :: ps) k fr = (k, fr) :: setFrame ps k fr := by
  simp [setFrame, hp]

theorem getFrame_none_set {l : FrameTable} {k : Nat × Nat} {fr : Frame}
    (h : getFrame l k = none) : setFrame l k fr = l := by
  induction l with
  | nil => rfl
  | cons p ps ih =>
    by_cases hp : p.1 = k
    · rw [getFrame, if_pos hp] at h
      cases h
    · rw [getFrame, if_neg hp] at h
      rw [setFrame, List.map_cons, if_neg hp]
      rw [setFrame] at ih
      rw [ih h]

theorem getFrame_set_self {l : FrameTable} {k : Nat × Nat} {fr0 fr : Frame}
    (h : getFrame l k = some fr0) : getFrame (setFrame l k fr) k = some fr := by
  induction l with
  | nil => cases h
  | cons p ps ih =>
    by_cases hp : p.1 = k
    · rw [setFrame, List.map_cons, if_pos hp, getFrame, if_pos rfl]
    · rw [getFrame, if_neg hp] at h
      rw [setFrame, List.map_cons, if_neg hp, getFrame, if_neg hp]
      rw [setFrame] at ih
      exact ih h

theorem setFrame_setFrame {l : FrameTable} {k : Nat × Nat} {a b : Frame} :
    setFrame (setFrame l k a) k b = setFrame l k b := by
  rw [setFrame, setFrame, setFrame, List.map_map]
  apply List.map_congr_left
  intro p _
  by_cases hp : p.1 = k <;> simp [hp]

theorem getFrame_mem {l : FrameTable} {k : Nat × Nat} {fr : Frame}
    (h : getFrame l k = some fr) : ∃ p ∈ l, p.2 = fr := by
  induction l with
  | nil => cases h
  | cons p ps ih =>
    by_cases hp : p.1 = k
    · rw [getFrame, if_pos hp] at h
      exact ⟨p, List.mem_cons_self p ps, (Option.some.injEq _ _).mp h⟩
    · rw [getFrame, if_neg hp] at h
      obtain ⟨q, hq, he⟩ := ih h
      exact ⟨q, List.mem_cons_of_mem p hq, he⟩

/-! ### Claim C8 -/

/-- C8.  A non-open write (`open = false`) to a `(masterId, segmentId)`
whose frame does not exist, or whose frame has been sealed by a close,
fails with `BadSegmentId` — for every choice of the write's other
arguments, in particular also when the write itself carries `close = true`
(the retried-close case of
`BackupServiceTest::writeSegment_segmentClosedRedundantClosingWrite`). -/
theorem claim_C8 (st : BackupState) (mid sid epoch offset : Nat)
    (bytes : List Nat) (cert : Option Nat) (closeFlag primaryFlag : Bool)
    (h : getFrame st.frames (mid, sid) = none ∨
      ∃ fr, getFrame st.frames (mid, sid) = some fr ∧ fr.closed = true) :
    writeSegment st mid sid epoch offset bytes cert false closeFlag primaryFlag =
      .error .badSegmentId := by
  rcases h with h | ⟨fr, h, hc⟩ <;> simp [writeSegment, h]
  simp [hc]

/-- C8 (witness): a closed frame for `(99, 88)`; a retried closing write
at offset 1 fails with `BadSegmentId`. -/
theorem claim_C8_witness :
    writeSegment ⟨4, 3, [((99, 88), ⟨[1, 2, 3, 4], 4, some 7, true, true, 0⟩)]⟩
        99 88 0 1 [5] none false true false = .error .badSegmentId :=
  claim_C8 ⟨4, 3, [((99, 88), ⟨[1, 2, 3, 4], 4, some 7, true, true, 0⟩)]⟩
    99 88 0 1 [5] none true false
    (Or.inr ⟨⟨[1, 2, 3, 4], 4, some 7, true, true, 0⟩, by decide, rfl⟩)

/-! ### Claim C9 -/

/-- C9.  `writeSegment` is idempotent for identical retries that do not
close the frame: if a write of `bytes` at `offset` (with the same
certificate and flags) succeeded producing state `st'`, then repeating
the identical call on `st'` succeeds and returns `st'` itself — so any
number of identical repetitions leaves the stored replica (bytes and
metadata) exactly as after the first call.  The well-formedness
hypothesis says every stored frame's data fills its capacity. -/
theorem claim_C9 (st : BackupState) (mid sid epoch offset : Nat)
    (bytes : List Nat) (cert : Option Nat) (openFlag primaryFlag : Bool)
    (st' : BackupState)
    (hwf : ∀ p ∈ st.frames, (p.2).data.length = (p.2).capacity)
    (h1 : writeSegment st mid sid epoch offset bytes cert openFlag false
        primaryFlag = .ok st') :
    writeSegment st' mid sid epoch offset bytes cert openFlag false
        primaryFlag = .ok st' := by
  cases hg : getFrame st.frames (mid, sid) with
  | none =>
    cases openFlag with
    | false => simp [writeSegment, hg] at h1
    | true =>
      simp only [writeSegment, hg, if_true] at h1
      split_ifs at h1 with h2 h3
      rw [Except.ok.injEq] at h1
      subst h1
      have hdl : offset + bytes.length ≤
          (freshFrame st.segmentSize primaryFlag epoch).data.length := by
        simp [freshFrame]
        omega
      have happ : applyWrite
          (applyWrite (freshFrame st.segmentSize primaryFlag epoch)
            offset bytes cert false epoch) offset bytes cert false epoch =
          applyWrite (freshFrame st.segmentSize primaryFlag epoch)
            offset bytes cert false epoch := by
        simp only [applyWrite]
        cases cert <;> simp [writeBytes_idem hdl]
      have hgf : getFrame
          (((mid, sid), applyWrite (freshFrame st.segmentSize primaryFlag epoch)
              offset bytes cert false epoch) :: st.frames) (mid, sid) =
          some (applyWrite (freshFrame st.segmentSize primaryFlag epoch)
              offset bytes cert false epoch) := by
        rw [getFrame, if_pos rfl]
      have hcl : (applyWrite (freshFrame st.segmentSize primaryFlag epoch)
          offset bytes cert false epoch).closed = false := by
        simp [applyWrite, freshFrame]
      have hcap : ¬((applyWrite (freshFrame st.segmentSize primaryFlag epoch)
          offset bytes cert false epoch).capacity < offset + bytes.length) := by
        simpa [applyWrite, freshFrame] using h3
      simp only [writeSegment, hgf]
      rw [if_neg (by simp [hcl])]
      rw [if_neg hcap]
      rw [happ]
      rw [setFrame_cons_pos rfl, getFrame_none_set hg]
  | some fr0 =>
    simp only [writeSegment, hg] at h1
    split_ifs at h1 with hc hcap
    rw [Except.ok.injEq] at h1
    subst h1
    obtain ⟨p, hp, he⟩ := getFrame_mem hg
    have hdl : offset + bytes.length ≤ fr0.data.length := by
      have := hwf p hp
      rw [he] at this
      omega
    have hgf : getFrame (setFrame st.frames (mid, sid)
        (applyWrite fr0 offset bytes cert false epoch)) (mid, sid) =
        some (applyWrite fr0 offset bytes cert false epoch) :=
      getFrame_set_self hg
    have happ : applyWrite (applyWrite fr0 offset bytes cert false epoch)
        offset bytes cert false epoch =
        applyWrite fr0 offset bytes cert false epoch := by
      simp only [applyWrite]
      cases cert <;> simp [writeBytes_idem hdl]
    have hcl : (applyWrite fr0 offset bytes cert false epoch).closed = false := by
      simp [applyWrite]
      simpa using hc
    simp only [writeSegment, hgf]
    rw [if_neg (by simp [hcl])]
    rw [if_neg (by simpa [applyWrite] using hcap)]
    rw [happ, setFrame_setFrame]

/-- C9 (witness): writing bytes `[7, 7]` at offset 1 of an open 4-byte
frame; repeating the call on the resulting state returns that state
unchanged. -/
theorem claim_C9_witness :
    writeSegment
        ⟨4, 3, [((99, 88), ⟨[0, 7, 7, 0], 4, none, false, true, 0⟩)]⟩
        99 88 0 1 [7, 7] none false false false =
      .ok ⟨4, 3, [((99, 88), ⟨[0, 7, 7, 0], 4, none, false, true, 0⟩)]⟩ :=
  claim_C9 ⟨4, 3, [((99, 88), ⟨[0, 0, 0, 0], 4, none, false, true, 0⟩)]⟩
    99 88 0 1 [7, 7] none false false
    ⟨4, 3, [((99, 88), ⟨[0, 7, 7, 0], 4, none, false, true, 0⟩)]⟩
    (by decide) rfl

theorem repInv_fresh (openLen : Nat) (queued : Progress) :
    RepInv openLen queued Replica.fresh where
  cLEa := rfl
  aLEs := rfl
  sLEq := Progress.bot_cle queued
  sentOpenZero := fun _ => ⟨rfl, rfl⟩
  ackedOpenZero := fun _ => ⟨rfl, rfl⟩
  ackedSmall := fun _ => Nat.zero_le _
  comOpenBytes := fun h => nomatch h
  sentClosedFull := fun h => nomatch h
  ackedClosedFull := fun h => nomatch h
  sentClosedCom := fun h => nomatch h
  ackedClosedCom := fun h => nomatch h
  rpcOpen := fun _ h => nomatch h
  rpcData := fun _ h => nomatch h

theorem repInv_failedR (openLen : Nat) (queued : Progress) :
    RepInv openLen queued Replica.failedR where
  cLEa := rfl
  aLEs := rfl
  sLEq := Progress.bot_cle queued
  sentOpenZero := fun _ => ⟨rfl, rfl⟩
  ackedOpenZero := fun _ => ⟨rfl, rfl⟩
  ackedSmall := fun _ => Nat.zero_le _
  comOpenBytes := fun h => nomatch h
  sentClosedFull := fun h => nomatch h
  ackedClosedFull := fun h => nomatch h
  sentClosedCom := fun h => nomatch h
  ackedClosedCom := fun h => nomatch h
  rpcOpen := fun _ h => nomatch h
  rpcData := fun _ h => nomatch h

theorem repInv_startR {openLen : Nat} {queued : Progress} {r : Replica}
    (h : RepInv openLen queued r) (backupId : Nat) :
    RepInv openLen queued (Replica.startR backupId r) where
  cLEa := h.cLEa
  aLEs := h.aLEs
  sLEq := h.sLEq
  sentOpenZero := h.sentOpenZero
  ackedOpenZero := h.ackedOpenZero
  ackedSmall := h.ackedSmall
  comOpenBytes := h.comOpenBytes
  sentClosedFull := h.sentClosedFull
  ackedClosedFull := h.ackedClosedFull
  sentClosedCom := h.sentClosedCom
  ackedClosedCom := h.ackedClosedCom
  rpcOpen := h.rpcOpen
  rpcData := h.rpcData

theorem repInv_cancel {openLen : Nat} {queued : Progress} {r : Replica}
    (h : RepInv openLen queued r) :
    RepInv openLen queued { r with writeRpc := none } where
  cLEa := h.cLEa
  aLEs := h.aLEs
  sLEq := h.sLEq
  sentOpenZero := h.sentOpenZero
  ackedOpenZero := h.ackedOpenZero
  ackedSmall := h.ackedSmall
  comOpenBytes := h.comOpenBytes
  sentClosedFull := h.sentClosedFull
  ackedClosedFull := h.ackedClosedFull
  sentClosedCom := h.sentClosedCom
  ackedClosedCom := h.ackedClosedCom
  rpcOpen := fun _ hw => nomatch hw
  rpcData := fun _ hw => nomatch hw

theorem repInv_freeOut {openLen : Nat} {queued : Progress} {r : Replica}
    (h : RepInv openLen queued r) :
    RepInv openLen queued { r with freeRpcOut := true } where
  cLEa := h.cLEa
  aLEs := h.aLEs
  sLEq := h.sLEq
  sentOpenZero := h.sentOpenZero
  ackedOpenZero := h.ackedOpenZero
  ackedSmall := h.ackedSmall
  comOpenBytes := h.comOpenBytes
  sentClosedFull := h.sentClosedFull
  ackedClosedFull := h.ackedClosedFull
  sentClosedCom := h.sentClosedCom
  ackedClosedCom := h.ackedClosedCom
  rpcOpen := h.rpcOpen
  rpcData := h.rpcData

theorem repInv_epochBump {openLen : Nat} {queued : Progress} {r : Replica}
    (h : RepInv openLen queued r) :
    RepInv openLen { queued with epoch := queued.epoch + 1 } r := by
  obtain ⟨qo, qb, qc, qe⟩ := queued
  obtain ⟨h1, h2, h3, h4, h5, h6, h7, h8, h9, h10, h11, h12, h13⟩ := h
  rw [Progress.cle_iff] at h3
  dsimp only at h3 h8 h9
  refine ⟨h1, h2, ?_, h4, h5, h6, h7, ?_, ?_, h10, h11, h12, h13⟩
  · rw [Progress.cle_iff]
    dsimp only
    exact ⟨h3.1, h3.2.1, h3.2.2.1, by omega⟩
  · intro hc
    exact h8 hc
  · intro hc
    exact h9 hc

theorem repInv_closeQ {openLen : Nat} {queued : Progress} {r : Replica}
    {app : Nat} (h : RepInv openLen queued r) (hq : queued.closed = false)
    (happ : queued.bytes ≤ app) :
    RepInv openLen { queued with closed := true, bytes := app } r := by
  obtain ⟨qo, qb, qc, qe⟩ := queued
  obtain ⟨h1, h2, h3, h4, h5, h6, h7, h8, h9, h10, h11, h12, h13⟩ := h
  rw [Progress.cle_iff] at h3
  dsimp only at h3 h8 h9 hq happ
  subst hq
  refine ⟨h1, h2, ?_, h4, h5, h6, h7, ?_, ?_, h10, h11, h12, h13⟩
  · rw [Progress.cle_iff]
    dsimp only
    exact ⟨h3.1, by omega, fun _ => rfl, h3.2.2.2⟩
  · intro hc
    exact absurd (h8 hc).2 (by simp)
  · intro hc
    exact absurd (h9 hc).2 (by simp)

theorem repInv_stretchQ {openLen : Nat} {queued : Progress} {r : Replica}
    {app : Nat} (h : RepInv openLen queued r)
    (hfrozen : queued.closed = true → queued.bytes = app) :
    RepInv openLen { queued with bytes := Nat.max queued.bytes app } r := by
  obtain ⟨qo, qb, qc, qe⟩ := queued
  obtain ⟨h1, h2, h3, h4, h5, h6, h7, h8, h9, h10, h11, h12, h13⟩ := h
  rw [Progress.cle_iff] at h3
  dsimp only at h3 h8 h9 hfrozen
  refine ⟨h1, h2, ?_, h4, h5, h6, h7, ?_, ?_, h10, h11, h12, h13⟩
  · rw [Progress.cle_iff]
    dsimp only
    exact ⟨h3.1, le_trans h3.2.1 (Nat.le_max_left qb app), h3.2.2.1, h3.2.2.2⟩
  · intro hc
    obtain ⟨hb, hcl⟩ := h8 hc
    refine ⟨?_, hcl⟩
    dsimp only
    rw [hb, hfrozen hcl]
    simp
  · intro hc
    obtain ⟨hb, hcl⟩ := h9 hc
    refine ⟨?_, hcl⟩
    dsimp only
    rw [hb, hfrozen hcl]
    simp

theorem repInv_serverDown {openLen : Nat} {queued : Progress} {r : Replica}
    (h : RepInv openLen queued r) :
    RepInv openLen queued (writeAckServerDown r) where
  cLEa := h.cLEa
  aLEs := Progress.cle_refl _
  sLEq := Progress.cle_trans h.aLEs h.sLEq
  sentOpenZero := h.ackedOpenZero
  ackedOpenZero := h.ackedOpenZero
  ackedSmall := h.ackedSmall
  comOpenBytes := h.comOpenBytes
  sentClosedFull := h.ackedClosedFull
  ackedClosedFull := h.ackedClosedFull
  sentClosedCom := h.ackedClosedCom
  ackedClosedCom := h.ackedClosedCom
  rpcOpen := fun _ hw => nomatch hw
  rpcData := fun _ hw => nomatch hw

theorem repInv_ackSuccess {openLen : Nat} {queued : Progress} {r : Replica}
    (h : RepInv openLen queued r) (_hq : queued.opened = true)
    (holq : openLen ≤ queued.bytes) (w : WriteRpc) (hw : r.writeRpc = some w) :
    RepInv openLen queued (writeAckSuccess openLen queued r) := by
  obtain ⟨h1, h2, h3, h4, h5, h6, h7, h8, h9, h10, h11, h12, h13⟩ := h
  have hcs : Progress.cle r.committed r.sent = true := Progress.cle_trans h1 h2
  have hchain : r.committed.opened = true → r.sent.opened = true := fun hh =>
    (Progress.cle_iff.mp hcs).1 hh
  by_cases hcond : r.sent = queued ∨ r.sent.bytes = openLen
  · have hC : writeAckSuccess openLen queued r =
        { r with acked := r.sent, committed := r.sent, writeRpc := none } := by
      simp [writeAckSuccess, hcond]
    rw [hC]
    refine ⟨Progress.cle_refl _, Progress.cle_refl _, h3, h4, h4, ?_, ?_, h8, h8,
      ?_, ?_, (fun _ hw2 => nomatch hw2), (fun _ hw2 => nomatch hw2)⟩
    · intro hno
      dsimp only at hno ⊢
      rw [(h4 hno).1]
      exact Nat.zero_le _
    · intro hyes
      dsimp only at hyes ⊢
      rcases hcond with hcond | hcond
      · rw [hcond]
        exact holq
      · rw [hcond]
    · intro hcl
      dsimp only at hcl ⊢
      exact hchain (h10 hcl)
    · intro hcl
      dsimp only at hcl ⊢
      exact hchain (h10 hcl)
  · have hC : writeAckSuccess openLen queued r =
        { r with acked := r.sent, writeRpc := none } := by
      simp [writeAckSuccess, hcond]
    rw [hC]
    refine ⟨Progress.cle_trans h1 h2, Progress.cle_refl _, h3, h4, h4, ?_, h7,
      h8, h8, h10, h10, (fun _ hw2 => nomatch hw2), (fun _ hw2 => nomatch hw2)⟩
    intro hno
    dsimp only at hno ⊢
    cases hof : w.openFlag with
    | true => exact (h12 w hw hof).2.le
    | false => exact absurd (h13 w hw hof) (by simp [hno])

theorem repInv_sendOpen {openLen : Nat} {queued : Progress} {r : Replica}
    (h : RepInv openLen queued r) (hq : queued.opened = true)
    (holq : openLen ≤ queued.bytes) (hnco : r.committed.opened = false) :
    RepInv openLen queued (sendOpenWrite openLen queued.epoch r).1 := by
  obtain ⟨h1, h2, h3, h4, h5, h6, h7, h8, h9, h10, h11, h12, h13⟩ := h
  rw [Progress.cle_iff] at h2 h3
  have hsc : r.sent.closed = false := by
    cases hc : r.sent.closed
    · rfl
    · exact absurd (h10 hc) (by simp [hnco])
  rw [sendOpenWrite]
  refine ⟨h1, ?_, ?_, ?_, h5, h6, h7, ?_, h9, ?_, h11, ?_, ?_⟩
  · rw [Progress.cle_iff]
    dsimp only
    refine ⟨fun _ => rfl, h6 hnco, ?_, le_trans h2.2.2.2 h3.2.2.2⟩
    intro hac
    exact absurd (h2.2.2.1 hac) (by simp [hsc])
  · rw [Progress.cle_iff]
    dsimp only
    exact ⟨fun _ => hq, holq, h3.2.2.1, le_refl _⟩
  · intro hh
    exact absurd hh (by simp)
  · intro hh
    dsimp only at hh
    exact absurd hh (by simp [hsc])
  · intro hh
    dsimp only at hh
    exact absurd hh (by simp [hsc])
  · intro w2 _ _
    exact ⟨rfl, rfl⟩
  · intro w2 hw2 hof
    dsimp only at hw2
    rw [Option.some.injEq] at hw2
    rw [← hw2] at hof
    exact absurd hof (by simp)

theorem repInv_sendData {openLen maxB : Nat} {queued : Progress} {r : Replica}
    (h : RepInv openLen queued r) (hq : queued.opened = true)
    (hco : r.committed.opened = true) :
    RepInv openLen queued (sendDataWrite maxB queued r).1 := by
  obtain ⟨qo, qb, qc, qe⟩ := queued
  obtain ⟨h1, h2, h3, h4, h5, h6, h7, h8, h9, h10, h11, h12, h13⟩ := h
  rw [Progress.cle_iff] at h2 h3
  dsimp only at h2 h3 h8 h9 hq
  subst hq
  have hso : r.sent.opened = true := by
    rw [Progress.cle_iff] at h1
    exact h2.1 (h1.1 hco)
  have hoffq : r.sent.bytes ≤ qb := h3.2.1
  by_cases hcap : maxB < qb - r.sent.bytes
  · have hne : ¬(r.sent.bytes + maxB = qb) := by omega
    have hcf : (qc && decide (r.sent.bytes + maxB = qb)) = false := by
      simp [hne]
    simp only [sendDataWrite, hcap, decide_eq_true_eq, if_pos, if_true, hcf]
    refine ⟨h1, ?_, ?_, ?_, h5, ?_, h7, ?_, h9, ?_, h11, ?_, ?_⟩
    · rw [Progress.cle_iff]
      dsimp only
      refine ⟨h2.1, by omega, ?_, le_trans h2.2.2.2 h3.2.2.2⟩
      intro hac
      exfalso
      have := (h9 hac).1
      have := h2.2.1
      omega
    · rw [Progress.cle_iff]
      dsimp only
      exact ⟨fun _ => rfl, by omega, (fun hh => nomatch hh), le_refl _⟩
    · intro hh
      dsimp only at hh
      exact absurd hso (by simp [hh])
    · intro hno
      dsimp only at hno
      exact absurd hco (by simp [hno])
    · intro hh
      dsimp only at hh
      exact nomatch hh
    · intro hh
      dsimp only at hh
      exact nomatch hh
    · intro w2 hw2 hof
      dsimp only at hw2
      rw [Option.some.injEq] at hw2
      rw [← hw2] at hof
      exact absurd hof (by simp)
    · intro w2 _ _
      exact hco
  · have hsum : r.sent.bytes + (qb - r.sent.bytes) = qb := by omega
    have hcf : (qc && decide (r.sent.bytes + (qb - r.sent.bytes) = qb)) = qc := by
      simp [hsum]
    simp only [sendDataWrite, hcap, decide_eq_true_eq, if_neg, if_false, hcf]
    refine ⟨h1, ?_, ?_, ?_, h5, ?_, h7, ?_, h9, ?_, h11, ?_, ?_⟩
    · rw [Progress.cle_iff]
      dsimp only
      refine ⟨h2.1, by omega, ?_, le_trans h2.2.2.2 h3.2.2.2⟩
      intro hac
      exact (h9 hac).2
    · rw [Progress.cle_iff]
      dsimp only
      exact ⟨fun _ => rfl, by omega, fun hh => hh, le_refl _⟩
    · intro hh
      dsimp only at hh
      exact absurd hso (by simp [hh])
    · intro hno
      dsimp only at hno
      exact absurd hco (by simp [hno])
    · intro hh
      dsimp only at hh ⊢
      exact ⟨by omega, hh⟩
    · intro hh
      dsimp only at hh
      exact hco
    · intro w2 hw2 hof
      dsimp only at hw2
      rw [Option.some.injEq] at hw2
      rw [← hw2] at hof
      exact absurd hof (by simp)
    · intro w2 _ _
      exact hco

theorem set_ne_nil {α : Type} {l : List α} {i : Nat} {a : α} (h : l ≠ []) :
    l.set i a ≠ [] := by
  intro hc
  apply h
  have := congrArg List.length hc
  simp only [List.length_set, List.length_nil] at this
  exact List.eq_nil_of_length_eq_zero this

theorem reps_set {s : SegState} {i : Nat} {r' : Replica}
    (hreps : ∀ r2 ∈ s.replicas, RepInv s.openLen s.queued r2)
    (hnew : RepInv s.openLen s.queued r') :
    ∀ r2 ∈ s.replicas.set i r', RepInv s.openLen s.queued r2 := by
  intro r2 h2
  rcases List.mem_or_eq_of_mem_set h2 with h2 | rfl
  · exact hreps r2 h2
  · exact hnew

theorem followClosed_set {l : List Replica} {i : Nat} {r' : Replica}
    (hold : ∀ r2 ∈ l, r2.sent.closed = false)
    (hnew : r'.sent.closed = false) :
    ∀ r2 ∈ l.set i r', r2.sent.closed = false := by
  intro r2 h2
  rcases List.mem_or_eq_of_mem_set h2 with h2 | rfl
  · exact hold r2 h2
  · exact hnew

theorem seginv_step {s : SegState} {l : Label} {s' : SegState}
    (hstep : Step s l s') (hinv : SegInv s) : SegInv s' := by
  obtain ⟨hqo, hol, hqa, hcf, hne, hreps, hfol⟩ := hinv
  cases hstep with
  | append n hq hgrow =>
      exact ⟨hqo, hol, le_trans hqa hgrow,
        fun hc => absurd hc (by simp [hq]), hne, hreps, hfol⟩
  | closeStep hq =>
      exact ⟨hqo, le_trans hol hqa, le_refl _, fun _ => rfl, hne,
        fun r hr => repInv_closeQ (hreps r hr) hq hqa, hfol⟩
  | syncStretch =>
      refine ⟨hqo, le_trans hol (Nat.le_max_left _ _), ?_, ?_, hne,
        fun r hr => repInv_stretchQ (hreps r hr) hcf, hfol⟩
      · exact Nat.max_le.mpr ⟨hqa, le_refl _⟩
      · intro hc
        dsimp only
        rw [hcf hc]
        simp
  | backupFailure fid =>
      cases hb : (s.replicas.any fun r =>
          (r.isActive && decide (r.backupId = fid)) && !r.committed.closed &&
            !r.replicateAtomically) with
      | false =>
          simp only [handleBackupFailureF, hb, Bool.or_false, if_neg,
            Bool.false_eq_true, not_false_eq_true, reduceIte]
          refine ⟨hqo, hol, hqa, hcf, by simp [hne], ?_, ?_⟩
          · intro r2 h2
            rw [List.mem_map] at h2
            obtain ⟨r0, hr0, rfl⟩ := h2
            by_cases hhit : (r0.isActive && decide (r0.backupId = fid)) = true
            · rw [if_pos hhit]
              exact repInv_failedR _ _
            · rw [if_neg hhit]
              exact hreps r0 hr0
          · intro hf r2 h2
            rw [List.mem_map] at h2
            obtain ⟨r0, hr0, rfl⟩ := h2
            by_cases hhit : (r0.isActive && decide (r0.backupId = fid)) = true
            · rw [if_pos hhit]
              rfl
            · rw [if_neg hhit]
              exact hfol hf r0 hr0
      | true =>
          simp only [handleBackupFailureF, hb, Bool.or_true, if_pos, reduceIte]
          refine ⟨hqo, hol, hqa, hcf, by simp [hne], ?_, ?_⟩
          · intro r2 h2
            rw [List.mem_map] at h2
            obtain ⟨r0, hr0, rfl⟩ := h2
            by_cases hhit : (r0.isActive && decide (r0.backupId = fid)) = true
            · rw [if_pos hhit]
              exact repInv_failedR _ _
            · rw [if_neg hhit]
              exact repInv_epochBump (hreps r0 hr0)
          · intro hf r2 h2
            rw [List.mem_map] at h2
            obtain ⟨r0, hr0, rfl⟩ := h2
            by_cases hhit : (r0.isActive && decide (r0.backupId = fid)) = true
            · rw [if_pos hhit]
              rfl
            · rw [if_neg hhit]
              exact hfol hf r0 hr0
  | freeStep h1 h2 h3 =>
      refine ⟨hqo, hol, hqa, hcf, by simp [hne], ?_, ?_⟩
      · intro r2 hm
        rw [List.mem_map] at hm
        obtain ⟨r0, hr0, rfl⟩ := hm
        exact repInv_cancel (hreps r0 hr0)
      · intro hf
        rw [h3] at hf
        cases hf
  | activate i bid r hr hfq hact =>
      refine ⟨hqo, hol, hqa, hcf, set_ne_nil hne,
        reps_set hreps (repInv_startR (hreps r (List.getElem?_mem hr)) bid), ?_⟩
      intro hf
      exact followClosed_set (hfol hf) (hfol hf r (List.getElem?_mem hr))
  | sendOpen i r hr hfq hact hrpc hfr hneq hnco hpo =>
      have hmem := List.getElem?_mem hr
      refine ⟨hqo, hol, hqa, hcf, set_ne_nil hne,
        reps_set hreps (repInv_sendOpen (hreps r hmem) hqo hol hnco), ?_⟩
      intro hf
      exact followClosed_set (hfol hf) (hfol hf r hmem)
  | sendData i r hr hfq hact hrpc hfr hneq hco hlt hpc hguard =>
      have hmem := List.getElem?_mem hr
      refine ⟨hqo, hol, hqa, hcf, set_ne_nil hne,
        reps_set hreps (repInv_sendData (hreps r hmem) hqo hco), ?_⟩
      intro hf
      refine followClosed_set (hfol hf) ?_
      cases hcl : (sendDataWrite s.maxBytesPerWriteRpc s.queued r).2.closeFlag with
      | false => exact hcl
      | true => exact absurd ⟨hcl, hf⟩ hguard
  | ackSuccess i r w hr hw =>
      have hmem := List.getElem?_mem hr
      have hs2 : SegInv { s with
          replicas := s.replicas.set i (writeAckSuccess s.openLen s.queued r) } := by
        refine ⟨hqo, hol, hqa, hcf, set_ne_nil hne,
          reps_set hreps (repInv_ackSuccess (hreps r hmem) hqo hol w hw), ?_⟩
        intro hf
        exact followClosed_set (hfol hf) (hfol hf r hmem)
      unfold ackSuccessSeg ackSuccessFollow
      split_ifs with hgc
      · exact ⟨hs2.qOpened, hs2.openLenLE, hs2.qLEapp, hs2.closedFrozen,
          hs2.nonempty, hs2.reps, fun hf => by cases hf⟩
      · exact hs2
  | ackServerDown i r w hr hw =>
      have hmem := List.getElem?_mem hr
      refine ⟨hqo, hol, hqa, hcf, set_ne_nil hne,
        reps_set hreps (repInv_serverDown (hreps r hmem)), ?_⟩
      intro hf
      refine followClosed_set (hfol hf) ?_
      cases hac : r.acked.closed with
      | false => exact hac
      | true =>
          exact absurd ((Progress.cle_iff.mp (hreps r hmem).aLEs).2.2.1 hac)
            (by simp [hfol hf r hmem])
  | ackOpenRejected i r w hr hw =>
      refine ⟨hqo, hol, hqa, hcf, set_ne_nil hne,
        reps_set hreps (repInv_fresh _ _), ?_⟩
      intro hf
      exact followClosed_set (hfol hf) rfl
  | sendFree i r hr hfq hrec hact hfr hrpc =>
      have hmem := List.getElem?_mem hr
      refine ⟨hqo, hol, hqa, hcf, set_ne_nil hne,
        reps_set hreps (repInv_freeOut (hreps r hmem)), ?_⟩
      intro hf
      exact followClosed_set (hfol hf) (hfol hf r hmem)
  | ackFree i r hr hfq hrec hfr =>
      refine ⟨hqo, hol, hqa, hcf, set_ne_nil hne,
        reps_set hreps (repInv_fresh _ _), ?_⟩
      intro hf
      exact followClosed_set (hfol hf) rfl
  | destroyStep h1 h2 h3 =>
      exact ⟨hqo, hol, hqa, hcf, hne, hreps, hfol⟩
  | epochRequest h1 h2 h3 =>
      exact ⟨hqo, hol, hqa, hcf, hne, hreps, hfol⟩
  | epochConfirm e =>
      exact ⟨hqo, hol, hqa, hcf, hne, hreps, hfol⟩
  | recoveryDone h1 h2 h3 =>
      exact ⟨hqo, hol, hqa, hcf, hne, hreps, hfol⟩
  | followingOpens h1 =>
      exact ⟨hqo, hol, hqa, hcf, hne, hreps, fun hf => by cases hf⟩
  | linkFollowing hn hq =>
      refine ⟨hqo, hol, hqa, hcf, hne, hreps, ?_⟩
      intro _ r2 h2
      cases hsc : r2.sent.closed with
      | false => rfl
      | true =>
          exact absurd ((hreps r2 h2).sentClosedFull hsc).2 (by simp [hq])
  | precedingOpens =>
      exact ⟨hqo, hol, hqa, hcf, hne, hreps, hfol⟩
  | precedingCloses =>
      exact ⟨hqo, hol, hqa, hcf, hne, hreps, hfol⟩

theorem seginv_init (numReplicas openLen0 maxB : Nat) (pO pC : Bool)
    (hn : 0 < numReplicas) : SegInv (initSeg numReplicas openLen0 maxB pO pC) := by
  refine ⟨rfl, le_refl _, le_refl _, (fun hc => nomatch hc), ?_, ?_, ?_⟩
  · simp [initSeg]
    omega
  · intro r hr
    rw [initSeg] at hr
    rw [List.eq_of_mem_replicate hr]
    exact repInv_fresh _ _
  · intro hf
    cases hf

theorem seginv_trace {s : SegState} {ls : List Label} {s' : SegState}
    (ht : Trace s ls s') (hinv : SegInv s) : SegInv s' := by
  induction ht with
  | nil => exact hinv
  | cons hstep _ ih => exact ih (seginv_step hstep hinv)

theorem Progress.pmin_closed (a b : Progress) :
    (Progress.pmin a b).closed = (a.closed && b.closed) := rfl

theorem foldr_pmin_closed (l : List Replica) (init : Progress) :
    (l.foldr (fun r acc => Progress.pmin r.committed acc) init).closed =
      ((l.all fun r => r.committed.closed) && init.closed) := by
  induction l with
  | nil => simp
  | cons r rs ih =>
      simp only [List.foldr_cons, List.all_cons, Progress.pmin_closed, ih,
        Bool.and_assoc]

theorem getCommitted_closed (s : SegState) :
    (getCommitted s).closed = (s.replicas.all fun r => r.committed.closed) := by
  rw [getCommitted, foldr_pmin_closed]
  simp

/-- C5.  In every state reachable from a freshly constructed
`ReplicatedSegment` by any sequence of `close`, `sync`, `free`,
`handleBackupFailure` and `performTask` steps with any rpc outcomes, every
replica satisfies `committed ≤ acked ≤ sent ≤ queued` componentwise on
open, bytes, close and epoch. -/
theorem claim_C5 (numReplicas openLen0 maxB : Nat) (pO pC : Bool)
    (ls : List Label) (s : SegState) (hn : 0 < numReplicas)
    (ht : Trace (initSeg numReplicas openLen0 maxB pO pC) ls s) :
    ∀ r ∈ s.replicas,
      Progress.cle r.committed r.acked = true ∧
      Progress.cle r.acked r.sent = true ∧
      Progress.cle r.sent s.queued = true := by
  have hinv := seginv_trace ht (seginv_init numReplicas openLen0 maxB pO pC hn)
  intro r hr
  exact ⟨(hinv.reps r hr).cLEa, (hinv.reps r hr).aLEs, (hinv.reps r hr).sLEq⟩

/-- C5 (witness): the invariant at the initial state of a segment with 3
replicas and `openLen = 16`, instantiated at its (fresh) replica. -/
theorem claim_C5_witness :
    Progress.cle Replica.fresh.committed Replica.fresh.acked = true ∧
    Progress.cle Replica.fresh.acked Replica.fresh.sent = true ∧
    Progress.cle Replica.fresh.sent (initSeg 3 16 8 true true).queued = true :=
  claim_C5 3 16 8 true true [] (initSeg 3 16 8 true true) (by decide)
    (Trace.nil _) Replica.fresh (by decide)

/-- C6.  While a following segment is linked and its open is not yet
committed (`following = some false`), this segment's committed-close is
false — the close of segment K is never committed before the open of
K+1 — and moreover `performWrite` never issues a write carrying the close
flag in such a state (the withheld-close guard of
ReplicatedSegment.cc lines 660-674). -/
theorem claim_C6 (numReplicas openLen0 maxB : Nat) (pO pC : Bool)
    (ls : List Label) (s : SegState) (hn : 0 < numReplicas)
    (ht : Trace (initSeg numReplicas openLen0 maxB pO pC) ls s) :
    (s.following = some false → (getCommitted s).closed = false) ∧
    (∀ l s' b w, Step s l s' → l = Label.write b w → w.closeFlag = true →
      s.following ≠ some false) := by
  have hinv := seginv_trace ht (seginv_init numReplicas openLen0 maxB pO pC hn)
  constructor
  · intro hf
    obtain ⟨r0, hr0⟩ := List.exists_mem_of_ne_nil s.replicas hinv.nonempty
    have hsc : r0.sent.closed = false := hinv.followClosed hf r0 hr0
    have hcc : r0.committed.closed = false := by
      cases hc : r0.committed.closed with
      | false => rfl
      | true =>
          have h1 := (Progress.cle_iff.mp (hinv.reps r0 hr0).cLEa).2.2.1 hc
          have h2 := (Progress.cle_iff.mp (hinv.reps r0 hr0).aLEs).2.2.1 h1
          exact absurd h2 (by simp [hsc])
    rw [getCommitted_closed]
    cases hall : (s.replicas.all fun r => r.committed.closed) with
    | false => rfl
    | true =>
        have := List.all_eq_true.mp hall r0 hr0
        simp [this] at hcc
  · intro l s' b w hstep hl hcf hfol
    subst hl
    cases hstep with
    | sendOpen i r hr hfq hact hrpc hfr hneq hnco hpo =>
        exact nomatch hcf
    | sendData i r hr hfq hact hrpc hfr hneq hco hlt hpc hguard =>
        exact hguard ⟨hcf, hfol⟩

/-- C7.  Once `freeQueued` is set no subsequent write rpc is ever issued:
every label of a trace starting from a `freeQueued` state is not a write;
`freeQueued` is never cleared; and the step that sets it (`free()`)
cancels every outstanding write rpc in the same step
(ReplicatedSegment.cc lines 157-165, 387-394). -/
theorem claim_C7 :
    (∀ s ls s', Trace s ls s' → s.freeQueued = true →
      ∀ b w, Label.write b w ∉ ls) ∧
    (∀ s l s', Step s l s' → s.freeQueued = true → s'.freeQueued = true) ∧
    (∀ s l s', Step s l s' → s.freeQueued = false → s'.freeQueued = true →
      ∀ r ∈ s'.replicas, r.writeRpc = none) := by
  have hmono : ∀ s l s', Step s l s' → s.freeQueued = true →
      s'.freeQueued = true := by
    intro s l s' hstep hfq
    cases hstep <;>
      first
        | exact hfq
        | rfl
        | (unfold ackSuccessSeg ackSuccessFollow
           split_ifs <;> exact hfq)
  have hnowrite : ∀ s b w s', Step s (Label.write b w) s' →
      s.freeQueued = false := by
    intro s b w s' hstep
    cases hstep with
    | sendOpen i r hr hfq hact hrpc hfr hneq hnco hpo => exact hfq
    | sendData i r hr hfq hact hrpc hfr hneq hco hlt hpc hguard => exact hfq
  refine ⟨?_, hmono, ?_⟩
  · intro s ls s' ht
    induction ht with
    | nil =>
        intro _ b w h
        cases h
    | cons hstep htl ih =>
        intro hfq b w hmem
        rcases List.mem_cons.mp hmem with heq | hmem2
        · rw [← heq] at hstep
          exact absurd hfq (by simp [hnowrite _ _ _ _ hstep])
        · exact ih (hmono _ _ _ hstep hfq) b w hmem2
  · intro s l s' hstep hfq0 hfq1
    cases hstep with
    | ackSuccess i r w hr hw =>
        unfold ackSuccessSeg ackSuccessFollow at hfq1
        split_ifs at hfq1 <;> exact nomatch hfq0.symm.trans hfq1
    | freeStep h1 h2 h3 =>
        intro r hm
        rw [List.mem_map] at hm
        obtain ⟨r0, hr0, rfl⟩ := hm
        rfl
    | _ => exact nomatch hfq0.symm.trans hfq1

/-- C10.  While `recoveringFromLostOpenReplicas` is set, no free rpc is
issued or reaped and the segment is never destroyed (even if `freeQueued`
is already set, `performTask` lines 387-391); the flag is cleared only
when `getCommitted() == queued` and the coordinator has confirmed
`queued.epoch` (lines 400-412); and whenever `getCommitted() == queued`
but the epoch is not yet confirmed, the `performTask` step requesting
`replicationEpoch.updateToAtLeast(segmentId, queued.epoch)` is enabled
(lines 413-424). -/
theorem claim_C10 :
    (∀ s l s', Step s l s' → s.recovering = true →
      (∀ b, l ≠ Label.freeReq b) ∧ (∀ b, l ≠ Label.freeDone b) ∧
        l ≠ Label.destroy) ∧
    (∀ s l s', Step s l s' → s.recovering = true → s'.recovering = false →
      getCommitted s = s.queued ∧ s.queued.epoch ≤ s.epochConfirmed) ∧
    (∀ s, s.recovering = true → getCommitted s = s.queued →
      s.epochConfirmed < s.queued.epoch →
      Step s (Label.epochUpdate s.queued.epoch) s) := by
  refine ⟨?_, ?_, ?_⟩
  · intro s l s' hstep hrec
    cases hstep <;> simp_all
  · intro s l s' hstep hrec hrec'
    cases hstep with
    | recoveryDone h1 h2 h3 => exact ⟨h2, h3⟩
    | backupFailure fid => simp [handleBackupFailureF, hrec] at hrec'
    | ackSuccess i r w hr hw =>
        unfold ackSuccessSeg ackSuccessFollow at hrec'
        split_ifs at hrec' <;> exact nomatch hrec.symm.trans hrec'
    | _ => exact nomatch hrec.symm.trans hrec'
  · intro s hrec hcom hlt
    exact Step.epochRequest hrec hcom hlt

/-- C7 (witness): a concrete fully committed closed segment; `free()`
fires, the flag persists, the trace emits no write, and all write rpcs
are cancelled. -/
theorem claim_C7_witness :
    ({ freeWitnessState with
        freeQueued := true,
        replicas := freeWitnessState.replicas.map
          fun r => { r with writeRpc := none } } : SegState).freeQueued = true ∧
    Label.write 0 ⟨false, 0, 0, false, false, 0⟩ ∉ [Label.silent] ∧
    (⟨true, 1, false, ⟨true, 5, true, 1⟩, ⟨true, 5, true, 1⟩,
      ⟨true, 5, true, 1⟩, none, false⟩ : Replica).writeRpc = none := by
  refine ⟨?_, ?_, ?_⟩
  · exact claim_C7.2.1 { freeWitnessState with freeQueued := true } Label.silent _
      (Step.freeStep rfl (by decide) rfl) rfl
  · exact claim_C7.1 { freeWitnessState with freeQueued := true } [Label.silent] _
      (Trace.cons (Step.freeStep rfl (by decide) rfl) (Trace.nil _)) rfl
      0 ⟨false, 0, 0, false, false, 0⟩
  · exact claim_C7.2.2 freeWitnessState Label.silent _
      (Step.freeStep rfl (by decide) rfl) rfl rfl
      ⟨true, 1, false, ⟨true, 5, true, 1⟩, ⟨true, 5, true, 1⟩,
        ⟨true, 5, true, 1⟩, none, false⟩ (by decide)

/-- C10 (witness): a concrete recovering, fully re-replicated segment
with unconfirmed epoch takes the `updateToAtLeast` step. -/
theorem claim_C10_witness :
    Step epochWitnessState (Label.epochUpdate epochWitnessState.queued.epoch)
      epochWitnessState :=
  claim_C10.2.2 epochWitnessState rfl (by decide) (by decide)

/-- C6 (witness): a segment that just linked a following segment (whose
open is uncommitted) has uncommitted close. -/
theorem claim_C6_witness :
    (getCommitted { initSeg 2 4 8 true true with following := some false }).closed
      = false :=
  (claim_C6 2 4 8 true true [Label.silent]
      { initSeg 2 4 8 true true with following := some false } (by decide)
      (Trace.cons (Step.linkFollowing rfl rfl) (Trace.nil _))).1 rfl

end RAMCloudRep
